import Mathlib

/-!
Verification of `core/domain/html_validation_service.py` (Oppia HTML
validation service).

The service operates on HTML fragments parsed by BeautifulSoup into a
node tree. We embed that tree shallowly: a node is either a text node
(no tag name, matching bs4 NavigableString whose `.name` is None) or an
element node with a tag name, an ordered attribute mapping and an
ordered child list. `soup.findAll(...)` returns the document-order
(preorder) list of element descendants; we model it the same way.

External collaborators that are not part of this repository (the
BeautifulSoup parser itself, `utils.escape_html` / `utils.unescape_html`,
`json.loads` / `json.dumps`, `objects.UnicodeString.normalize`,
`objects.MathExpressionContent.normalize`, and the `feconf` grammar
tables / `constants.SVG_ATTRS_ALLOWLIST`) are taken as parameters, with
`Option` results standing for code paths that raise exceptions.
-/

/-- A BeautifulSoup node: a text node (bs4 NavigableString, `.name` is
None) or an element with tag name, ordered attributes and children. -/
inductive HNode where
  | text (s : String)
  | elem (name : String) (attrs : List (String × String)) (children : List HNode)

/-- The `.name` of a node: `none` for a text node, mirroring bs4 where a
NavigableString has name None. -/
def nodeName : HNode → Option String
  | .text _ => none
  | .elem n _ _ => some n

/-- Ordered association-list lookup (Python `d[k]` / `k in d`). -/
def alistGet {α : Type} : List (String × α) → String → Option α
  | [], _ => none
  | (k', v) :: rest, k => if k' = k then some v else alistGet rest k

/-- Attribute lookup on a node (`tag.has_attr` / `tag['k']`); a text
node has no attributes. -/
def attrGet : HNode → String → Option String
  | .text _, _ => none
  | .elem _ attrs _, k => alistGet attrs k

/-- Python `err_dict[k].append(v) if k in err_dict else err_dict[k] = [v]`
on an insertion-ordered dict represented as an association list. -/
def dictAppend : List (String × List String) → String → String → List (String × List String)
  | [], k, v => [(k, [v])]
  | (k', vs) :: rest, k, v =>
      if k' = k then (k', vs ++ [v]) :: rest else (k', vs) :: dictAppend rest k v

/-- Python `d[k] = v` on an insertion-ordered dict: update in place if
the key exists, otherwise append at the end. -/
def alistSet : List (String × String) → String → String → List (String × String)
  | [], k, v => [(k, v)]
  | (k', v') :: rest, k, v =>
      if k' = k then (k', v) :: rest else (k', v') :: alistSet rest k v

/-- Python `del d[k]` (bs4 `del tag['k']`): remove the key. -/
def alistDel : List (String × String) → String → List (String × String)
  | [], _ => []
  | (k', v') :: rest, k =>
      if k' = k then rest else (k', v') :: alistDel rest k

mutual

/-- Document-order (preorder) element descendants of a node, the node
itself included when it is an element — the traversal behind
`soup.findAll()`. -/
def descendantsN : HNode → List HNode
  | .text _ => []
  | .elem n a cs => HNode.elem n a cs :: descendantsC cs

/-- Document-order element descendants of a node list (the children of
the soup root). -/
def descendantsC : List HNode → List HNode
  | [] => []
  | c :: cs => descendantsN c ++ descendantsC cs

end

/-- `soup.findAll(name=nm)`: the document-order elements whose tag name
is `nm`. -/
def findAllTag (nm : String) (roots : List HNode) : List HNode :=
  (descendantsC roots).filter (fun e => nodeName e = some nm)

mutual

/-- Document-order list of (tag name, parent tag name) pairs for every
element, given the name of the enclosing parent. The soup root's name
is the bs4 document name, supplied by the caller. -/
def elemsN (parent : String) : HNode → List (String × String)
  | .text _ => []
  | .elem n _ cs => (n, parent) :: elemsC n cs

/-- Document-order (tag, parent) pairs of a node list under `parent`. -/
def elemsC (parent : String) : List HNode → List (String × String)
  | [] => []
  | c :: cs => elemsN parent c ++ elemsC parent cs

end

/-- Body of the `for tag in soup.findAll()` loop of
`validate_soup_for_rte` (lines 493-510): the disallowed-tag check, then
the disallowed-parent check, each appending to `err_dict` and setting
`is_invalid`. The parent check fires only when `tag.name` IS in the
allowed-tag list, exactly as the `and` on line 504 requires. -/
def checkTag (allowedTags : List String) (allowedParents : String → List String)
    (np : String × String) (st : List (String × List String) × Bool) :
    List (String × List String) × Bool :=
  let st1 :=
    if np.1 ∈ allowedTags then st
    else (dictAppend st.1 "invalidTags" np.1, true)
  if np.1 ∈ allowedTags ∧ np.2 ∉ allowedParents np.1 then
    (dictAppend st1.1 np.1 np.2, true)
  else st1

/-- `validate_soup_for_rte(soup, rte_format, err_dict)` (lines 464-512).
The grammar tables (`feconf.RTE_CONTENT_SPEC[rte_type]`) are external
configuration, passed as `allowedTags` / `allowedParents`; the RTE
format selection only picks which tables are passed. A fragment's
top-level elements see the soup root as parent, whose bs4 name is
`[document]`. Returns the mutated `err_dict` and `is_invalid`. -/
def validate_soup_for_rte (allowedTags : List String)
    (allowedParents : String → List String) (roots : List HNode)
    (errDict : List (String × List String)) :
    List (String × List String) × Bool :=
  let isInvalid := roots.any (fun c => (nodeName c).isNone)
  (elemsC "[document]" roots).foldl
    (fun st np => checkTag allowedTags allowedParents np st) (errDict, isInvalid)

/-- The pre-parse normalisation on line 423 and 439:
`html.replace('<br>', '<br/>')`. -/
def brFix (s : String) : String :=
  s.replace "<br>" "<br/>"

/-- The `for collapsible in soup.findAll('oppia-noninteractive-collapsible')`
loop of `validate_rte_format` (lines 430-443). `parse` is the external
BeautifulSoup parser; `decodeStr` models
`json.loads(utils.unescape_html(-))` yielding a string, `none` standing
for a raised exception, which propagates (overall result `none`). When
the inner validation marks the collapsible content invalid, the whole
original fragment string is appended to the `strings` bucket. -/
def processCollapsibles (parse : String → List HNode)
    (decodeStr : String → Option String) (allowedTags : List String)
    (allowedParents : String → List String) (htmlData : String) :
    List HNode → List (String × List String) → Option (List (String × List String))
  | [], errDict => some errDict
  | c :: rest, errDict =>
      let checked : Option (List (String × List String) × Bool) :=
        match attrGet c "content-with-value" with
        | none => some (errDict, true)
        | some v =>
            if v = "" then some (errDict, true)
            else
              match decodeStr v with
              | none => none
              | some contentHtml =>
                  some (validate_soup_for_rte allowedTags allowedParents
                    (parse (brFix contentHtml)) errDict)
      match checked with
      | none => none
      | some (errDict', isInvalid) =>
          let errDict'' :=
            if isInvalid then dictAppend errDict' "strings" htmlData else errDict'
          processCollapsibles parse decodeStr allowedTags allowedParents htmlData
            rest errDict''

/-- The inner `for tab_content in tab_content_list` loop of
`validate_rte_format` (lines 449-456): validate each tab's content
fragment, appending the original fragment string on invalidity. -/
def processTabContents (parse : String → List HNode) (allowedTags : List String)
    (allowedParents : String → List String) (htmlData : String) :
    List String → List (String × List String) → List (String × List String)
  | [], errDict => errDict
  | contentHtml :: rest, errDict =>
      let r := validate_soup_for_rte allowedTags allowedParents
        (parse (brFix contentHtml)) errDict
      let errDict' := if r.2 then dictAppend r.1 "strings" htmlData else r.1
      processTabContents parse allowedTags allowedParents htmlData rest errDict'

/-- The `for tabs in soup.findAll('oppia-noninteractive-tabs')` loop
(lines 445-456). `decodeTabs` models
`json.loads(utils.unescape_html(-))` of the tab list followed by the
`tab_content['content']` extractions; a missing
`tab_contents-with-value` attribute raises KeyError in the Python
(`tabs['tab_contents-with-value']`), modelled as `none`. -/
def processTabsTags (parse : String → List HNode)
    (decodeTabs : String → Option (List String)) (allowedTags : List String)
    (allowedParents : String → List String) (htmlData : String) :
    List HNode → List (String × List String) → Option (List (String × List String))
  | [], errDict => some errDict
  | t :: rest, errDict =>
      match attrGet t "tab_contents-with-value" with
      | none => none
      | some v =>
          match decodeTabs v with
          | none => none
          | some contents =>
              processTabsTags parse decodeTabs allowedTags allowedParents htmlData
                rest
                (processTabContents parse allowedTags allowedParents htmlData
                  contents errDict)

/-- One iteration of the `for html_data in html_list` loop of
`validate_rte_format` (lines 415-456): parse, run the grammar walk,
append the fragment to `strings` when invalid, then recurse into
collapsible and tabs contents. -/
def processFragment (parse : String → List HNode)
    (decodeStr : String → Option String) (decodeTabs : String → Option (List String))
    (allowedTags : List String) (allowedParents : String → List String)
    (htmlData : String) (errDict : List (String × List String)) :
    Option (List (String × List String)) :=
  let roots := parse (brFix htmlData)
  let r := validate_soup_for_rte allowedTags allowedParents roots errDict
  let errDict1 := if r.2 then dictAppend r.1 "strings" htmlData else r.1
  match processCollapsibles parse decodeStr allowedTags allowedParents htmlData
      (findAllTag "oppia-noninteractive-collapsible" roots) errDict1 with
  | none => none
  | some errDict2 =>
      processTabsTags parse decodeTabs allowedTags allowedParents htmlData
        (findAllTag "oppia-noninteractive-tabs" roots) errDict2

/-- The fold of `processFragment` over the input list. -/
def processFragments (parse : String → List HNode)
    (decodeStr : String → Option String) (decodeTabs : String → Option (List String))
    (allowedTags : List String) (allowedParents : String → List String) :
    List String → List (String × List String) → Option (List (String × List String))
  | [], errDict => some errDict
  | h :: rest, errDict =>
      match processFragment parse decodeStr decodeTabs allowedTags allowedParents
          h errDict with
      | none => none
      | some errDict' =>
          processFragments parse decodeStr decodeTabs allowedTags allowedParents
            rest errDict'

/-- `validate_rte_format(html_list, rte_format)` (lines 394-461).
The dict starts as `{'strings': []}`; after all fragments are processed
every bucket is deduplicated by `list(set(-))` (line 459) — Python's set
iteration order is unspecified, so we model the deduplication with
`List.dedup`; the claims proved about it use only properties that are
invariant under the ordering (key presence and duplicate-freeness).
A `none` result models an exception propagating out of the call. -/
def validate_rte_format (parse : String → List HNode)
    (decodeStr : String → Option String) (decodeTabs : String → Option (List String))
    (allowedTags : List String) (allowedParents : String → List String)
    (htmlList : List String) : Option (List (String × List String)) :=
  match processFragments parse decodeStr decodeTabs allowedTags allowedParents
      htmlList [("strings", [])] with
  | none => none
  | some errDict => some (errDict.map (fun kv => (kv.1, kv.2.dedup)))

/-- External collaborators used by the math schema migration
(`add_math_content_to_math_rte_components`, lines 766-845), all from
outside this repository: `decodeStr` is `json.loads(utils.unescape_html(-))`
producing a string, `normalizeU` is `objects.UnicodeString.normalize`,
`normalizeMC` is `objects.MathExpressionContent.normalize` on the
`raw_latex` / `svg_filename` pair, and `encodePayload` is
`utils.escape_html(json.dumps(-, sort_keys=True))`. A `none` result of
the first three models a raised exception. -/
structure MathMigrationEnv where
  decodeStr : String → Option String
  normalizeU : String → Option String
  normalizeMC : String → String → Option (String × String)
  encodePayload : String → String → String

/-- The body of the `for math_tag in soup.findAll('oppia-noninteractive-math')`
loop (lines 784-841) on one tag's attribute dict.
`none` = an exception propagates; `some none` = the tag is decomposed
(deleted); `some (some attrs)` = the tag is kept with these attributes.
Branches in source order: legacy `raw_latex-with-value` present and
empty => decompose (line 793); present and non-empty => decode and
normalize (a failure is re-raised, line 811), fold in an optional
`svg_filename-with-value` (whose decode failures also propagate,
uncaught), build and normalize the combined payload, store it under
`math_content-with-value` and delete the legacy attribute; legacy
absent but `math_content-with-value` present => untouched (line 838);
neither => decompose (line 841). -/
def migrateMathAttrs (env : MathMigrationEnv) (attrs : List (String × String)) :
    Option (Option (List (String × String))) :=
  match alistGet attrs "raw_latex-with-value" with
  | some rawVal =>
      if rawVal = "" then some none
      else
        match env.decodeStr rawVal with
        | none => none
        | some rawLatex =>
            match env.normalizeU rawLatex with
            | none => none
            | some normalizedRawLatex =>
                let withSvg :
                    Option ((String × String) × List (String × String)) :=
                  match alistGet attrs "svg_filename-with-value" with
                  | some svgVal =>
                      match env.decodeStr svgVal with
                      | none => none
                      | some svgFilename =>
                          match env.normalizeU svgFilename with
                          | none => none
                          | some normalizedSvgFilename =>
                              some ((normalizedRawLatex, normalizedSvgFilename),
                                alistDel attrs "svg_filename-with-value")
                  | none => some ((normalizedRawLatex, ""), attrs)
                match withSvg with
                | none => none
                | some (mathContentDict, attrs1) =>
                    match env.normalizeMC mathContentDict.1 mathContentDict.2 with
                    | none => none
                    | some normalized =>
                        some (some (alistDel
                          (alistSet attrs1 "math_content-with-value"
                            (env.encodePayload normalized.1 normalized.2))
                          "raw_latex-with-value"))
  | none =>
      match alistGet attrs "math_content-with-value" with
      | some _ => some (some attrs)
      | none => some none

mutual

/-- The migration transform on one node. A math tag's attributes go
through `migrateMathAttrs`; every node's children are processed
recursively, deleted children being dropped in place. (Math tags nested
inside a decomposed math tag are destroyed with it and never visited —
real fragments never nest math tags inside math tags.) -/
def migrateNode (env : MathMigrationEnv) : HNode → Option (Option HNode)
  | .text s => some (some (.text s))
  | .elem n a cs =>
      if n = "oppia-noninteractive-math" then
        match migrateMathAttrs env a with
        | none => none
        | some none => some none
        | some (some a') =>
            match migrateChildren env cs with
            | none => none
            | some cs' => some (some (.elem n a' cs'))
      else
        match migrateChildren env cs with
        | none => none
        | some cs' => some (some (.elem n a cs'))

/-- The migration transform on a child list, dropping decomposed
nodes. -/
def migrateChildren (env : MathMigrationEnv) : List HNode → Option (List HNode)
  | [] => some []
  | c :: cs =>
      match migrateNode env c with
      | none => none
      | some none => migrateChildren env cs
      | some (some c') =>
          match migrateChildren env cs with
          | none => none
          | some cs' => some (c' :: cs')

end

/-- `add_math_content_to_math_rte_components(html_string)` (lines
766-845), modelled tree-to-tree: the surrounding parse / `str(soup)`
round trip and the `<br/>` => `<br>` post-processing are the external
Tree Parser / Serializer collaborators, inverse to each other. `none`
models the documented exception propagating to the caller. -/
def add_math_content_to_math_rte_components (env : MathMigrationEnv)
    (roots : List HNode) : Option (List HNode) :=
  migrateChildren env roots

/-- Python `str.lower()` on the ASCII tag and attribute names the SVG
sanitizer handles (bs4 names); character-wise ASCII lowering. -/
def strToLower (s : String) : String :=
  String.mk (s.data.map Char.toLower)

/-- `does_svg_tag_contains_xmlns_attribute(svg_string)` (lines 664-686):
every `<svg>` element carries an `xmlns` attribute (bs4 `.get` returns
non-None exactly when the attribute is present). -/
def does_svg_tag_contains_xmlns_attribute (roots : List HNode) : Bool :=
  (findAllTag "svg" roots).all (fun t => (attrGet t "xmlns").isSome)

/-- One element's contribution in `get_invalid_svg_tags_and_attrs`
(lines 716-723): an unknown (lower-cased) tag contributes its name to
the invalid-elements list and nothing to the invalid-attributes list;
a known tag contributes each attribute missing from its allowed set as
`tag:attribute` (original casing) and nothing to invalid-elements. -/
def svgCheckElem (allowlist : List (String × List String)) (e : HNode) :
    List String × List String :=
  match e with
  | .text _ => ([], [])
  | .elem n attrs _ =>
      match alistGet allowlist (strToLower n) with
      | some allowedAttrs =>
          ([], attrs.filterMap (fun av =>
            if allowedAttrs.contains (strToLower av.1) then none
            else some (n ++ ":" ++ av.1)))
      | none => ([n], [])

/-- `get_invalid_svg_tags_and_attrs(svg_string)` (lines 689-724) as the
literal accumulator loop over `soup.find_all()`:
`constants.SVG_ATTRS_ALLOWLIST` is external configuration, passed in as
`allowlist`. -/
def get_invalid_svg_tags_and_attrs (allowlist : List (String × List String))
    (roots : List HNode) : List String × List String :=
  (descendantsC roots).foldl
    (fun acc e =>
      match e with
      | .text _ => acc
      | .elem n attrs _ =>
          match alistGet allowlist (strToLower n) with
          | some allowedAttrs =>
              (acc.1, acc.2 ++ attrs.filterMap (fun av =>
                if allowedAttrs.contains (strToLower av.1) then none
                else some (n ++ ":" ++ av.1)))
          | none => (acc.1 ++ [n], acc.2))
    ([], [])

/-- The `independent_parents` list of `wrap_with_siblings` (line 47):
tags that are self-sufficient block parents and are never absorbed. -/
def independent_parents : List String :=
  ["h1", "p", "pre", "ol", "ul", "blockquote"]

/-- Python `sib.name in independent_parents`: a text sibling (name
None) is never independent. -/
def isIndependent (x : HNode) : Bool :=
  match nodeName x with
  | some n => independent_parents.contains n
  | none => false

/-- The `for sib in next_sib` loop of `wrap_with_siblings` (lines
72-76): absorb following siblings until the first independent one, at
which the loop breaks; returns (absorbed, remaining). -/
def wrapNextSplit : List HNode → List HNode × List HNode
  | [] => ([], [])
  | s :: rest =>
      if isIndependent s then ([], s :: rest)
      else
        let r := wrapNextSplit rest
        (s :: r.1, r.2)

/-- `wrap_with_siblings(tag, p)` (lines 38-76), modelled on the sibling
list: `prevDoc` are the siblings before `tag` in document order,
`nextSib` those after, and the fresh wrapper tag is
`elem pname pattrs []`. Mirrors the source: `prev_sib` is the
closest-first list of previous siblings; the first loop finds
`len(prev_sib) - index` of the first independent previous sibling
(default -1); the second loop wraps, iterating `reversed(prev_sib)`,
every sibling whose index in that order is `>=` that value; then `tag`
itself is wrapped, then following siblings up to the first independent
one. Each bs4 `wrap` appends to the same `p` and relocates `p` to the
wrapped node's position, so the wrapper ends up in place of the
absorbed run. Returns the new sibling list of the parent. -/
def wrap_with_siblings (prevDoc : List HNode) (tag : HNode)
    (nextSib : List HNode) (pname : String) (pattrs : List (String × String)) :
    List HNode :=
  let prev_sib := prevDoc.reverse
  let indexOfFirstUnwrappedSibling : Int :=
    match prev_sib.findIdx? isIndependent with
    | some j => (prev_sib.length : Int) - (j : Int)
    | none => -1
  let wrappedPrev :=
    ((prev_sib.reverse.enum.filter
      (fun is => (is.1 : Int) ≥ indexOfFirstUnwrappedSibling)).map Prod.snd)
  let keptPrev :=
    ((prev_sib.reverse.enum.filter
      (fun is => ¬ (is.1 : Int) ≥ indexOfFirstUnwrappedSibling)).map Prod.snd)
  let nxt := wrapNextSplit nextSib
  keptPrev ++ [HNode.elem pname pattrs (wrappedPrev ++ [tag] ++ nxt.1)] ++ nxt.2

/-- The specified behaviour of the sibling-wrapping utility, written
from the spec's words (spec section 4.6): absorb the contiguous run of
non-self-sufficient previous siblings (walking backward, stopping at
the first self-sufficient one), then the tag, then the contiguous run
of non-self-sufficient following siblings, all in original document
order; unabsorbed siblings stay in place around the wrapper. -/
def wrapWithSiblingsSpec (prevDoc : List HNode) (tag : HNode)
    (nextSib : List HNode) (pname : String) (pattrs : List (String × String)) :
    List HNode :=
  let absorbedPrev := (prevDoc.reverse.takeWhile (fun s => !(isIndependent s))).reverse
  let keptPrev := (prevDoc.reverse.dropWhile (fun s => !(isIndependent s))).reverse
  let absorbedNext := nextSib.takeWhile (fun s => !(isIndependent s))
  let keptNext := nextSib.dropWhile (fun s => !(isIndependent s))
  keptPrev ++ [HNode.elem pname pattrs (absorbedPrev ++ [tag] ++ absorbedNext)] ++ keptNext

/-- Python `str.replace(pattern, replacement)` on strings of Unicode
code points (`List Nat`, so that the lone-surrogate entries of the
mapping table, unrepresentable as Lean `Char`, keep their meaning):
scan left to right, replacing non-overlapping occurrences. For an empty
pattern the source table has no entry, and this model returns the
string unchanged. -/
def pyReplaceFuel (p r : List Nat) : Nat → List Nat → List Nat
  | _, [] => []
  | 0, s => s
  | fuel + 1, c :: cs =>
      if p ≠ [] ∧ p.isPrefixOf (c :: cs) then
        r ++ pyReplaceFuel p r fuel ((c :: cs).drop p.length)
      else
        c :: pyReplaceFuel p r fuel cs

/-- `pyReplace` proper: every scan step consumes at least one input
character, so the input length bounds the number of steps and the
fuelled recursion never hits its (identity) fuel floor. -/
def pyReplace (p r : List Nat) (s : List Nat) : List Nat :=
  pyReplaceFuel p r s.length s

/-- The `for bad_char, good_char in char_mapping_tuples` loop of
`_replace_incorrectly_encoded_chars` (lines 986-987): apply every rule
in listed order, each rule's output feeding the next. -/
def applyMappings (ms : List (List Nat × List Nat)) (s : List Nat) : List Nat :=
  ms.foldl (fun acc pr => pyReplace pr.1 pr.2 acc) s

/-- `CHAR_MAPPINGS` (lines 89-391): the ordered character-repair table,
entry for entry, as code-point strings. -/
def CHAR_MAPPINGS : List (List Nat × List Nat) := [
  ([160], [160]),
  ([161], [161]),
  ([162], [162]),
  ([163], [163]),
  ([164], [164]),
  ([165], [165]),
  ([166], [166]),
  ([167], [167]),
  ([168], [168]),
  ([169], [169]),
  ([170], [170]),
  ([171], [171]),
  ([172], [172]),
  ([173], [173]),
  ([174], [174]),
  ([175], [175]),
  ([192], [192]),
  ([193], [193]),
  ([194], [194]),
  ([195], [195]),
  ([196], [196]),
  ([197], [197]),
  ([198], [198]),
  ([199], [199]),
  ([200], [200]),
  ([201], [201]),
  ([202], [202]),
  ([203], [203]),
  ([204], [204]),
  ([205], [205]),
  ([206], [206]),
  ([207], [207]),
  ([224], [224]),
  ([225], [225]),
  ([226], [226]),
  ([227], [227]),
  ([228], [228]),
  ([229], [229]),
  ([230], [230]),
  ([231], [231]),
  ([232], [232]),
  ([233], [233]),
  ([234], [234]),
  ([235], [235]),
  ([236], [236]),
  ([237], [237]),
  ([238], [238]),
  ([239], [239]),
  ([240], [240]),
  ([241], [241]),
  ([242], [242]),
  ([243], [243]),
  ([244], [244]),
  ([245], [245]),
  ([194], []),
  ([224, 402], [195]),
  ([195, 160], [224]),
  ([195, 161], [225]),
  ([195, 162], [226]),
  ([195, 163], [227]),
  ([195, 164], [228]),
  ([195, 165], [229]),
  ([195, 166], [230]),
  ([195, 167], [231]),
  ([195, 168], [232]),
  ([195, 169], [233]),
  ([195, 170], [234]),
  ([195, 171], [235]),
  ([195, 172], [236]),
  ([195, 173], [237]),
  ([195, 174], [238]),
  ([195, 175], [239]),
  ([195, 176], [240]),
  ([195, 177], [241]),
  ([195, 178], [242]),
  ([195, 179], [243]),
  ([195, 180], [244]),
  ([195, 181], [245]),
  ([195, 182], [246]),
  ([195, 183], [247]),
  ([195, 184], [248]),
  ([195, 185], [249]),
  ([195, 186], [250]),
  ([195, 187], [251]),
  ([195, 188], [252]),
  ([195, 189], [253]),
  ([195, 190], [254]),
  ([195, 191], [255]),
  ([195, 8211], [214]),
  ([195, 8212], [215]),
  ([195, 8216], [209]),
  ([195, 8220], [211]),
  ([195, 8222], [196]),
  ([195, 8225], [199]),
  ([195, 8226], [213]),
  ([195, 8364], [192]),
  ([195, 339], [220]),
  ([195, 376], [223]),
  ([402, 160], []),
  ([195, 352], [202]),
  ([195, 353], [218]),
  ([195, 402, 161], [225]),
  ([195, 402, 162], [226]),
  ([195, 402, 164], [228]),
  ([195, 402, 167], [231]),
  ([195, 402, 168], [232]),
  ([195, 402, 169], [233]),
  ([195, 402, 170], [234]),
  ([195, 402, 173], [237]),
  ([195, 402, 179], [243]),
  ([195, 402, 181], [245]),
  ([195, 402, 182], [246]),
  ([195, 402, 186], [250]),
  ([195, 402, 187], [251]),
  ([195, 402, 188], [252]),
  ([195, 402, 197, 8220], [220]),
  ([195, 402, 226, 8364, 162], [213]),
  ([195, 8218], []),
  ([195, 8230, 197, 184], [351]),
  ([195, 8240, 226, 8364, 186], [603]),
  ([195, 8240], [201]),
  ([195], [224]),
  ([196, 8364], [256]),
  ([196, 8230], [261]),
  ([196, 8225], [263]),
  ([196, 8482], [281]),
  ([196, 338], [268]),
  ([196, 382], [286]),
  ([196, 376], [287]),
  ([196, 197, 184], [287]),
  ([196, 171], [299]),
  ([196, 176], [304]),
  ([196, 177], [305]),
  ([196, 187], [315]),
  ([197, 186], [378]),
  ([197, 190], [382]),
  ([197, 382], [350]),
  ([197, 8250], [347]),
  ([197, 376], [351]),
  ([197, 8216], [337]),
  ([201, 8250], [603]),
  ([204, 8364], [768]),
  ([206, 8221], [916]),
  ([207, 8364], [960]),
  ([209, 710], [1096]),
  ([215, 8216], [1489]),
  ([216, 376], [1567]),
  ([216, 181], [1589]),
  ([216, 173], [1581]),
  ([216, 164], [1572]),
  ([217, 352], [1610]),
  ([217, 8230], [1605]),
  ([217, 710], [1608]),
  ([217, 8240], [1609]),
  ([224, 182, 8225], [3463]),
  ([224, 182, 8230], [3461]),
  ([225, 185, 8250], [7771]),
  ([225, 187, 8220], [7891]),
  ([225, 187, 8230], [7877]),
  ([225, 186, 191], [7871]),
  ([225, 187, 376], [7903]),
  ([226, 8224, 8217], [8594]),
  ([226, 203, 8224, 226, 8364, 176], [8713]),
  ([226, 8364, 339], [8220]),
  ([226, 710, 8240], [8713]),
  ([226, 8230, 732], [8536]),
  ([226, 8364, 8482], [8217]),
  ([226, 710, 353], [8730]),
  ([226, 710, 710], [8712]),
  ([226, 8230, 8226], [8533]),
  ([226, 8230, 8482], [8537]),
  ([226, 8364, 732], [8216]),
  ([226, 8364, 8221], [8212]),
  ([226, 8364, 8249], [8203]),
  ([226, 8364, 166], [8230]),
  ([226, 8212, 175], [9711]),
  ([226, 8364, 8220], [8211]),
  ([226, 8230, 8211], [8534]),
  ([226, 8230, 8221], [8532]),
  ([226, 8240, 164], [8804]),
  ([226, 8218, 172], [8364]),
  ([226, 339, 8230], [9989]),
  ([226, 382, 164], [10148]),
  ([226, 732, 186], [9786]),
  ([226, 8250, 177], [9969]),
  ([226, 8364], [8224]),
  ([226, 8364, 8220], [8211]),
  ([226, 8364, 166], [8230]),
  ([226, 172, 8230], [11013]),
  ([227, 8218, 338], [12428]),
  ([227, 8218, 710], [12424]),
  ([227, 8218, 8224], [12422]),
  ([227, 8218, 8240], [12425]),
  ([227, 8218, 8364], [12416]),
  ([227, 8218, 8222], [12420]),
  ([227, 8218, 8220], [12435]),
  ([227, 8218, 8218], [12418]),
  ([227, 8218, 8217], [12434]),
  ([227, 8218, 352], [12426]),
  ([228, 184, 339], [19996]),
  ([229, 338, 8212], [21271]),
  ([229, 381, 187], [21435]),
  ([230, 8220, 166], [25830]),
  ([230, 339, 168], [26408]),
  ([230, 710, 8216], [25105]),
  ([230, 732, 175], [26159]),
  ([232, 165, 191], [35199]),
  ([233, 8221, 8482], [38169]),
  ([239, 188, 353], [65306]),
  ([239, 188, 376], [65311]),
  ([8224, 8220], [8211]),
  ([8224, 166], [8230]),
  ([52292], [228]),
  ([52404], [252]),
  ([35258], [305]),
  ([52852], [299]),
  ([3619, 3591], [231]),
  ([3619, 151], [215]),
  ([3619, 3607], [247]),
  ([3619, 3606], [246]),
  ([3619, 3603], [243]),
  ([3619, 3611], [251]),
  ([240, 376, 732, 8226], [128533]),
  ([240, 376, 732, 352], [128522]),
  ([240, 376, 732, 8240], [128521]),
  ([240, 376, 8482, 8222], [128580]),
  ([240, 376, 8482, 8218], [128578]),
  ([287, 376, 732, 352], [128522]),
  ([287, 376, 8217, 161], [128161]),
  ([287, 376, 732, 8216], [128529]),
  ([287, 376, 732, 352], [128522]),
  ([240, 376, 8221, 8211], [128278]),
  ([287, 376, 732, 8240], [128521]),
  ([240, 376, 732, 402], [128515]),
  ([240, 376, 164, 8211], [129302]),
  ([240, 376, 8220, 183], [128247]),
  ([240, 376, 732, 8218], [128514]),
  ([240, 376, 8220, 8364], [128192]),
  ([240, 376, 8217, 191], [128191]),
  ([240, 376, 8217, 175], [128175]),
  ([240, 376, 8217, 161], [128161]),
  ([240, 376, 8216, 8249], [128075]),
  ([240, 376, 732, 177], [128561]),
  ([240, 376, 732, 8216], [128529]),
  ([240, 376, 732, 352], [128522]),
  ([240, 376, 381, 167], [127911]),
  ([240, 376, 381, 8482], [127897]),
  ([240, 376, 381, 188], [127932]),
  ([240, 376, 8220, 187], [128251]),
  ([240, 376, 164, 179], [129331]),
  ([240, 376, 8216, 338], [128076]),
  ([240, 376, 353, 166], [128678]),
  ([240, 376, 164, 8212], [129303]),
  ([240, 376, 732, 8222], [128516]),
  ([240, 376, 8216, 8240], [128073]),
  ([240, 376, 8220, 161], [128225]),
  ([240, 376, 8220, 163], [128227]),
  ([240, 376, 8220, 162], [128226]),
  ([240, 376, 8221, 352], [128266]),
  ([240, 376, 732, 381], [128526]),
  ([240, 376, 732, 8249], [128523]),
  ([240, 376, 732, 180], [128564]),
  ([240, 376, 8216, 8216], [128081]),
  ([240, 376, 8216, 8224], [128070]),
  ([240, 376, 8216, 174], [128110]),
  ([240, 376, 8220, 8221], [128212]),
  ([240, 376, 8220, 188], [128252]),
  ([240, 376, 8225, 169], [127465]),
  ([240, 376, 8225, 170], [127466]),
  ([240, 376, 8225, 172], [127468]),
  ([240, 376, 8225, 167], [127463]),
  ([240, 376, 8225, 186], [127482]),
  ([240, 376, 8225, 184], [127480]),
  ([240, 376, 8226, 182], [128374]),
  ([240, 376, 164, 8220], [129299]),
  ([240, 376, 164, 8221], [129300]),
  ([240, 376, 164, 169], [129321]),
  ([240, 376, 165, 186], [129402]),
  ([240, 376, 8216, 8240], [55357, 56393]),
  ([240, 376, 8216, 8240], [55357, 56393]),
  ([55357, 56393], [128073]),
  ([9], []),
  ([10], []),
  ([160], [32])]

/-- The string core of `_replace_incorrectly_encoded_chars` (lines
970-988): `CHAR_MAPPINGS` extended with the `('&nbsp;', ' ')` rule,
applied in listed order to `str(soup_context)`. The
`fix_incorrectly_encoded_chars` entry point (lines 991-1006) feeds the
serialized (sub)tree strings through this.  -/
def replace_incorrectly_encoded_chars (s : List Nat) : List Nat :=
  applyMappings (CHAR_MAPPINGS ++ [([38, 110, 98, 115, 112, 59], [32])]) s

/-- Occurrence of `p` as a contiguous substring of `s` (Python
`p in s`), by scanning positions. -/
def containsPat (p : List Nat) : List Nat → Bool
  | [] => p.isEmpty
  | c :: cs => p.isPrefixOf (c :: cs) || containsPat p cs

/-!
## Helper lemmas
-/

theorem pyReplaceFuel_of_not_contains (p r : List Nat) (fuel : Nat) (s : List Nat)
    (h : containsPat p s = false) : pyReplaceFuel p r fuel s = s := by
  induction fuel generalizing s with
  | zero => cases s <;> rfl
  | succ fuel ih =>
      cases s with
      | nil => rfl
      | cons c cs =>
          simp only [containsPat, Bool.or_eq_false_iff] at h
          simp only [pyReplaceFuel, h.1, Bool.false_eq_true, and_false, if_false]
          exact congrArg (c :: ·) (ih cs h.2)

theorem pyReplace_of_not_contains (p r : List Nat) (s : List Nat)
    (h : containsPat p s = false) : pyReplace p r s = s :=
  pyReplaceFuel_of_not_contains p r s.length s h

theorem applyMappings_of_not_contains (ms : List (List Nat × List Nat))
    (s : List Nat) (h : ∀ pr ∈ ms, containsPat pr.1 s = false) :
    applyMappings ms s = s := by
  induction ms with
  | nil => rfl
  | cons m rest ih =>
      have h1 : pyReplace m.1 m.2 s = s :=
        pyReplace_of_not_contains m.1 m.2 s (h m (List.mem_cons_self m rest))
      simp only [applyMappings, List.foldl_cons, h1]
      exact ih (fun pr hpr => h pr (List.mem_cons_of_mem m hpr))

/-!
## Claim C6 — character-repair idempotence
-/

set_option maxRecDepth 8000 in
/-- C6 counterexample: the character-repair transform is not idempotent.
On the two-code-point string U+00C3 U+0192 one application yields
U+00E0 U+0192 (the final `('\xc3', '\xe0')` rule fires), but a second
application matches the earlier `('\xe0ƒ', '\xc3')` rule and
collapses the result to U+00E0 alone. -/
theorem C6_not_idempotent_counterexample :
    replace_incorrectly_encoded_chars [195, 402] = [224, 402] ∧
    replace_incorrectly_encoded_chars (replace_incorrectly_encoded_chars [195, 402]) = [224] ∧
    (replace_incorrectly_encoded_chars (replace_incorrectly_encoded_chars [195, 402]) ==
      replace_incorrectly_encoded_chars [195, 402]) = false := by
  refine ⟨by decide, by decide, by decide⟩

/-- C6 (amended): applying the character-repair transform twice agrees
with applying it once on every string whose once-repaired form contains
no occurrence of any rule pattern; idempotence fails in general because
a later rule's output can reintroduce an earlier rule's pattern. -/
theorem C6_char_repair_idempotent_on_pattern_free (s : List Nat)
    (h : ∀ pr ∈ CHAR_MAPPINGS ++ [([38, 110, 98, 115, 112, 59], [32])],
      containsPat pr.1 (replace_incorrectly_encoded_chars s) = false) :
    replace_incorrectly_encoded_chars (replace_incorrectly_encoded_chars s) =
      replace_incorrectly_encoded_chars s :=
  applyMappings_of_not_contains _ _ h

set_option maxRecDepth 8000 in
/-- C6 witness: the amended idempotence theorem applied to the concrete
string "hi" (code points 104, 105), which no repair rule touches. -/
theorem C6_char_repair_idempotent_witness :
    ((CHAR_MAPPINGS ++ [([38, 110, 98, 115, 112, 59], [32])]).all
      (fun pr => !(containsPat pr.1 (replace_incorrectly_encoded_chars [104, 105])))) = true ∧
    replace_incorrectly_encoded_chars (replace_incorrectly_encoded_chars [104, 105]) =
      replace_incorrectly_encoded_chars [104, 105] :=
  ⟨by decide, C6_char_repair_idempotent_on_pattern_free [104, 105] (by decide)⟩

/-!
## Claim C9 — xmlns check is vacuously true without svg tags
-/

/-- C9: for every fragment containing no svg element at all,
`does_svg_tag_contains_xmlns_attribute` returns True — the universal
check over svg elements is vacuously satisfied. -/
theorem C9_no_svg_tag_passes_xmlns_check (roots : List HNode)
    (h : findAllTag "svg" roots = []) :
    does_svg_tag_contains_xmlns_attribute roots = true := by
  simp only [does_svg_tag_contains_xmlns_attribute, h, List.all_nil]

/-- C9 witness: a fragment consisting of a single paragraph element has
no svg element and passes the namespace check. -/
theorem C9_no_svg_tag_passes_xmlns_check_witness :
    findAllTag "svg" [HNode.elem "p" [] [HNode.text "hi"]] = [] ∧
    does_svg_tag_contains_xmlns_attribute [HNode.elem "p" [] [HNode.text "hi"]] = true :=
  ⟨rfl, C9_no_svg_tag_passes_xmlns_check _ rfl⟩

/-!
## Claim C1 — the two grammar checks are not independent for disallowed tags
-/

/-- C1 counterexample: with allowed tags `["p"]` and every allowed
parent list `["p"]`, the single element `<b>` has a disallowed tag AND
sits under a disallowed parent (the document root), yet only the
`invalidTags` bucket is written: no bucket keyed by the child tag "b"
is created, because the parent check (line 504) requires
`tag.name in allowed_tag_list`. -/
theorem C1_independent_checks_counterexample :
    ((["p"] : List String).contains "b") = false ∧
    ((["p"] : List String).contains "[document]") = false ∧
    validate_soup_for_rte ["p"] (fun _ => ["p"]) [HNode.elem "b" [] []] [] =
      ([("invalidTags", ["b"])], true) ∧
    alistGet (validate_soup_for_rte ["p"] (fun _ => ["p"])
      [HNode.elem "b" [] []] []).1 "b" = none := by
  refine ⟨by decide, by decide, by decide, by decide⟩

/-- C1 (amended): an element whose tag is not in the allowed-tag list
and whose parent is not in its allowed-parent set is recorded under
`invalidTags` and the fragment is marked invalid, but the parent's tag
is NOT recorded under the bucket keyed by the child tag: the
disallowed-parent check runs only for elements whose tag IS allowed. -/
theorem C1_disallowed_tag_only_invalidTags (allowedTags : List String)
    (allowedParents : String → List String) (n : String)
    (h1 : n ∉ allowedTags) (h2 : "[document]" ∉ allowedParents n) :
    validate_soup_for_rte allowedTags allowedParents [HNode.elem n [] []] [] =
      ([("invalidTags", [n])], true) := by
  simp only [validate_soup_for_rte, elemsC, elemsN, List.append_nil, List.foldl_cons,
    List.foldl_nil, checkTag, h1, if_false, if_neg h1, dictAppend, nodeName,
    List.any_cons, List.any_nil, Option.isNone_some, Bool.or_false]
  simp [h1]

/-- C1 witness: the amended theorem at the concrete grammar of the
counterexample. -/
theorem C1_disallowed_tag_only_invalidTags_witness :
    ((["p"] : List String).contains "b") = false ∧
    ((["p"] : List String).contains "[document]") = false ∧
    validate_soup_for_rte ["p"] (fun _ => ["p"]) [HNode.elem "b" [] []] [] =
      ([("invalidTags", ["b"])], true) :=
  ⟨by decide, by decide,
    C1_disallowed_tag_only_invalidTags ["p"] (fun _ => ["p"]) "b"
      (by decide) (by decide)⟩

/-!
## Claims C3, C4, C5 — math schema migration
-/

/-- C3: a math tag carrying only the legacy `raw_latex-with-value`
attribute with non-empty, decodable, normalizable content migrates to a
tag carrying `math_content-with-value` and no legacy attribute, and
running the migration again on the migrated output is a no-op. -/
theorem C3_math_migration_roundtrip (env : MathMigrationEnv) (v r nr a b : String)
    (hv : v ≠ "") (hdec : env.decodeStr v = some r)
    (hnorm : env.normalizeU r = some nr) (hmc : env.normalizeMC nr "" = some (a, b)) :
    add_math_content_to_math_rte_components env
        [HNode.elem "oppia-noninteractive-math" [("raw_latex-with-value", v)] []] =
      some [HNode.elem "oppia-noninteractive-math"
        [("math_content-with-value", env.encodePayload a b)] []] ∧
    attrGet (HNode.elem "oppia-noninteractive-math"
        [("math_content-with-value", env.encodePayload a b)] [])
      "math_content-with-value" = some (env.encodePayload a b) ∧
    attrGet (HNode.elem "oppia-noninteractive-math"
        [("math_content-with-value", env.encodePayload a b)] [])
      "raw_latex-with-value" = none ∧
    add_math_content_to_math_rte_components env
        [HNode.elem "oppia-noninteractive-math"
          [("math_content-with-value", env.encodePayload a b)] []] =
      some [HNode.elem "oppia-noninteractive-math"
        [("math_content-with-value", env.encodePayload a b)] []] := by
  refine ⟨?_, by simp [attrGet, alistGet], by simp [attrGet, alistGet], ?_⟩
  · simp [add_math_content_to_math_rte_components, migrateChildren, migrateNode,
      migrateMathAttrs, alistGet, alistSet, alistDel, hv, hdec, hnorm, hmc]
  · simp [add_math_content_to_math_rte_components, migrateChildren, migrateNode,
      migrateMathAttrs, alistGet]

/-- C3 witness: the round-trip theorem at a concrete environment where
decode and normalize are identities. -/
theorem C3_math_migration_roundtrip_witness :
    (("x" : String) == "") = false ∧
    add_math_content_to_math_rte_components
        ⟨fun s => some s, fun s => some s, fun a b => some (a, b), fun a b => a ++ "|" ++ b⟩
        [HNode.elem "oppia-noninteractive-math" [("raw_latex-with-value", "x")] []] =
      some [HNode.elem "oppia-noninteractive-math"
        [("math_content-with-value", "x|")] []] :=
  ⟨by decide,
    (C3_math_migration_roundtrip
      ⟨fun s => some s, fun s => some s, fun a b => some (a, b), fun a b => a ++ "|" ++ b⟩
      "x" "x" "x" "x" "" (by decide) rfl rfl rfl).1⟩

/-- C4: a math tag with neither the legacy `raw_latex-with-value` nor
the new `math_content-with-value` attribute, or one whose legacy
attribute is present but empty, is deleted outright by the migration;
no exception is raised (the result is `some` of the fragment with the
tag gone, never `none`). -/
theorem C4_math_migration_deletes_broken_tags (env : MathMigrationEnv)
    (attrs : List (String × String)) (cs : List HNode)
    (h : (alistGet attrs "raw_latex-with-value" = none ∧
          alistGet attrs "math_content-with-value" = none) ∨
         alistGet attrs "raw_latex-with-value" = some "") :
    add_math_content_to_math_rte_components env
      [HNode.elem "oppia-noninteractive-math" attrs cs] = some [] := by
  rcases h with ⟨h1, h2⟩ | h1
  · simp [add_math_content_to_math_rte_components, migrateChildren, migrateNode,
      migrateMathAttrs, h1, h2]
  · simp [add_math_content_to_math_rte_components, migrateChildren, migrateNode,
      migrateMathAttrs, h1]

/-- C4 witness: both deletion cases at concrete attribute dicts — a
math tag with no relevant attribute and one with an empty legacy
attribute are both silently removed. -/
theorem C4_math_migration_deletes_broken_tags_witness :
    ((alistGet ([("class", "c")] : List (String × String)) "raw_latex-with-value" = none ∧
      alistGet ([("class", "c")] : List (String × String)) "math_content-with-value" = none) ∧
     add_math_content_to_math_rte_components
       ⟨fun _ => none, fun _ => none, fun _ _ => none, fun _ _ => ""⟩
       [HNode.elem "oppia-noninteractive-math" [("class", "c")] []] = some []) ∧
    (alistGet ([("raw_latex-with-value", "")] : List (String × String))
        "raw_latex-with-value" = some "" ∧
     add_math_content_to_math_rte_components
       ⟨fun _ => none, fun _ => none, fun _ _ => none, fun _ _ => ""⟩
       [HNode.elem "oppia-noninteractive-math" [("raw_latex-with-value", "")] []] = some []) :=
  ⟨⟨⟨by decide, by decide⟩,
     C4_math_migration_deletes_broken_tags _ _ []
       (Or.inl ⟨by decide, by decide⟩)⟩,
   ⟨by decide,
     C4_math_migration_deletes_broken_tags _ _ []
       (Or.inr (by decide))⟩⟩

theorem migrateNode_fail_of_bad_latex (env : MathMigrationEnv)
    (attrs : List (String × String)) (cs : List HNode) (v : String)
    (hattr : alistGet attrs "raw_latex-with-value" = some v) (hv : v ≠ "")
    (hfail : env.decodeStr v = none ∨
      ∃ r, env.decodeStr v = some r ∧ env.normalizeU r = none) :
    migrateNode env (HNode.elem "oppia-noninteractive-math" attrs cs) = none := by
  rcases hfail with hdec | ⟨r, hdec, hnorm⟩
  · simp [migrateNode, migrateMathAttrs, hattr, hv, hdec]
  · simp [migrateNode, migrateMathAttrs, hattr, hv, hdec, hnorm]

theorem migrateChildren_none_of_mem (env : MathMigrationEnv) (l : List HNode)
    (t : HNode) (ht : t ∈ l) (hfail : migrateNode env t = none) :
    migrateChildren env l = none := by
  induction l with
  | nil => cases ht
  | cons c cs ih =>
      rcases List.mem_cons.mp ht with rfl | hmem
      · simp [migrateChildren, hfail]
      · cases hc : migrateNode env c with
        | none => simp [migrateChildren, hc]
        | some o =>
            cases o with
            | none => simpa [migrateChildren, hc] using ih hmem
            | some c' => simp [migrateChildren, hc, ih hmem]

/-- C5: an input whose top-level node list contains a math tag with a
non-empty legacy attribute whose decode (or normalize) fails makes the
whole migration call fail — the exception propagates to the caller
(`none`) instead of skipping the tag and returning a partial result. -/
theorem C5_migration_decode_failure_propagates (env : MathMigrationEnv)
    (pre post : List HNode) (attrs : List (String × String)) (cs : List HNode)
    (v : String)
    (hattr : alistGet attrs "raw_latex-with-value" = some v) (hv : v ≠ "")
    (hfail : env.decodeStr v = none ∨
      ∃ r, env.decodeStr v = some r ∧ env.normalizeU r = none) :
    add_math_content_to_math_rte_components env
      (pre ++ HNode.elem "oppia-noninteractive-math" attrs cs :: post) = none :=
  migrateChildren_none_of_mem env _ _
    (List.mem_append.mpr (Or.inr (List.mem_cons_self _ _)))
    (migrateNode_fail_of_bad_latex env attrs cs v hattr hv hfail)

/-- C5 witness: a one-tag fragment whose legacy attribute decodes to
nothing (the decode collaborator raises) makes the migration call
return `none`. -/
theorem C5_migration_decode_failure_propagates_witness :
    (alistGet ([("raw_latex-with-value", "x")] : List (String × String))
        "raw_latex-with-value" = some "x") ∧ (("x" : String) == "") = false ∧
    add_math_content_to_math_rte_components
      ⟨fun _ => none, fun _ => none, fun _ _ => none, fun _ _ => ""⟩
      [HNode.elem "oppia-noninteractive-math" [("raw_latex-with-value", "x")] []] = none :=
  ⟨by decide, by decide,
    C5_migration_decode_failure_propagates
      ⟨fun _ => none, fun _ => none, fun _ _ => none, fun _ _ => ""⟩
      [] [] [("raw_latex-with-value", "x")] [] "x" (by decide) (by decide)
      (Or.inl rfl)⟩

theorem svg_foldl_step (allowlist : List (String × List String))
    (acc : List String × List String) (e : HNode) :
    (match e with
      | HNode.text _ => acc
      | HNode.elem n attrs _ =>
          match alistGet allowlist (strToLower n) with
          | some allowedAttrs =>
              (acc.1, acc.2 ++ attrs.filterMap (fun av =>
                if allowedAttrs.contains (strToLower av.1) then none
                else some (n ++ ":" ++ av.1)))
          | none => (acc.1 ++ [n], acc.2)) =
      (acc.1 ++ (svgCheckElem allowlist e).1, acc.2 ++ (svgCheckElem allowlist e).2) := by
  cases e with
  | text s => simp [svgCheckElem]
  | elem n attrs cs =>
      cases h : alistGet allowlist (strToLower n) with
      | none => simp [svgCheckElem, h]
      | some allowedAttrs => simp [svgCheckElem, h]

theorem svg_foldl_flatMap (allowlist : List (String × List String))
    (l : List HNode) (acc : List String × List String) :
    l.foldl (fun acc e =>
      match e with
      | HNode.text _ => acc
      | HNode.elem n attrs _ =>
          match alistGet allowlist (strToLower n) with
          | some allowedAttrs =>
              (acc.1, acc.2 ++ attrs.filterMap (fun av =>
                if allowedAttrs.contains (strToLower av.1) then none
                else some (n ++ ":" ++ av.1)))
          | none => (acc.1 ++ [n], acc.2)) acc =
      (acc.1 ++ l.flatMap (fun e => (svgCheckElem allowlist e).1),
       acc.2 ++ l.flatMap (fun e => (svgCheckElem allowlist e).2)) := by
  induction l generalizing acc with
  | nil => simp
  | cons e rest ih =>
      rw [List.foldl_cons, svg_foldl_step, ih]
      simp

/-- C7: the SVG sanitizer's two result lists decompose element-wise
over the document-order element walk: every element whose lower-cased
tag is not an allowlist key contributes exactly its name to the
invalid-elements list and nothing else; every element with an
allowlisted tag contributes exactly its non-allowed attributes as
`tag:attribute` strings; no element contributes to both lists. -/
theorem C7_svg_sanitizer_per_element (allowlist : List (String × List String))
    (roots : List HNode) :
    (get_invalid_svg_tags_and_attrs allowlist roots).1 =
      (descendantsC roots).flatMap (fun e => (svgCheckElem allowlist e).1) ∧
    (get_invalid_svg_tags_and_attrs allowlist roots).2 =
      (descendantsC roots).flatMap (fun e => (svgCheckElem allowlist e).2) ∧
    (∀ e : HNode, (svgCheckElem allowlist e).1 = [] ∨
      (svgCheckElem allowlist e).2 = []) := by
  refine ⟨?_, ?_, ?_⟩
  · rw [get_invalid_svg_tags_and_attrs, svg_foldl_flatMap]; simp
  · rw [get_invalid_svg_tags_and_attrs, svg_foldl_flatMap]; simp
  · intro e
    cases e with
    | text s => left; rfl
    | elem n attrs cs =>
        cases h : alistGet allowlist (strToLower n) with
        | none => right; simp [svgCheckElem, h]
        | some allowedAttrs => left; simp [svgCheckElem, h]

theorem checkTag_id (allowedTags : List String)
    (allowedParents : String → List String) (np : String × String)
    (st : List (String × List String) × Bool)
    (h1 : np.1 ∈ allowedTags) (h2 : np.2 ∈ allowedParents np.1) :
    checkTag allowedTags allowedParents np st = st := by
  simp [checkTag, h1, h2]

theorem foldl_checkTag_id (allowedTags : List String)
    (allowedParents : String → List String) (l : List (String × String))
    (st : List (String × List String) × Bool)
    (h : ∀ np ∈ l, np.1 ∈ allowedTags ∧ np.2 ∈ allowedParents np.1) :
    l.foldl (fun st np => checkTag allowedTags allowedParents np st) st = st := by
  induction l generalizing st with
  | nil => rfl
  | cons np rest ih =>
      have hnp := h np (List.mem_cons_self np rest)
      rw [List.foldl_cons, checkTag_id _ _ _ _ hnp.1 hnp.2]
      exact ih st (fun x hx => h x (List.mem_cons_of_mem np hx))

theorem validate_soup_for_rte_ok (allowedTags : List String)
    (allowedParents : String → List String) (roots : List HNode)
    (errDict : List (String × List String))
    (h1 : ∀ np ∈ elemsC "[document]" roots,
      np.1 ∈ allowedTags ∧ np.2 ∈ allowedParents np.1)
    (h2 : roots.any (fun c => (nodeName c).isNone) = false) :
    validate_soup_for_rte allowedTags allowedParents roots errDict =
      (errDict, false) := by
  simp only [validate_soup_for_rte, h2]
  exact foldl_checkTag_id _ _ _ _ h1

/-!
## Claim C2 — grammar-valid fragments and the strings bucket
-/

/-- C2 counterexample: a fragment whose every element is an allowed tag
in an allowed parent position and which has no top-level text node can
still be appended to the `strings` bucket by `validate_rte_format`: a
collapsible element without a `content-with-value` attribute sets
`is_invalid` on line 434 after the grammar walk passed. -/
theorem C2_valid_grammar_still_reported_counterexample :
    ((elemsC "[document]" [HNode.elem "oppia-noninteractive-collapsible" [] []]).all
      (fun np => np.1 ∈ ["oppia-noninteractive-collapsible"] ∧
        np.2 ∈ ["[document]"]) = true) ∧
    (([HNode.elem "oppia-noninteractive-collapsible" [] []] : List HNode).any
      (fun c => (nodeName c).isNone) = false) ∧
    validate_rte_format
      (fun _ => [HNode.elem "oppia-noninteractive-collapsible" [] []])
      (fun _ => none) (fun _ => none)
      ["oppia-noninteractive-collapsible"] (fun _ => ["[document]"])
      ["frag"] = some [("strings", ["frag"])] ∧
    ((["frag"] : List String) == ([] : List String)) = false := by
  refine ⟨by decide, by decide, by decide, by decide⟩

/-- C2 (amended): a fragment whose every element is an allowed tag in
an allowed parent position, with no top-level text node, AND containing
no collapsible or tabs component element (whose nested-content checks
can mark a fragment invalid independently of the grammar walk), records
no error: the grammar walk leaves the error dict unchanged and returns
not-invalid, and `validate_rte_format` returns an empty `strings`
bucket. -/
theorem C2_valid_fragment_unreported (parse : String → List HNode)
    (decodeStr : String → Option String) (decodeTabs : String → Option (List String))
    (allowedTags : List String) (allowedParents : String → List String)
    (errDict : List (String × List String)) (s : String)
    (h1 : ∀ np ∈ elemsC "[document]" (parse (brFix s)),
      np.1 ∈ allowedTags ∧ np.2 ∈ allowedParents np.1)
    (h2 : (parse (brFix s)).any (fun c => (nodeName c).isNone) = false)
    (h3 : findAllTag "oppia-noninteractive-collapsible" (parse (brFix s)) = [])
    (h4 : findAllTag "oppia-noninteractive-tabs" (parse (brFix s)) = []) :
    validate_soup_for_rte allowedTags allowedParents (parse (brFix s)) errDict =
      (errDict, false) ∧
    validate_rte_format parse decodeStr decodeTabs allowedTags allowedParents
      [s] = some [("strings", [])] := by
  refine ⟨validate_soup_for_rte_ok _ _ _ _ h1 h2, ?_⟩
  simp only [validate_rte_format, processFragments, processFragment, h3, h4,
    validate_soup_for_rte_ok _ _ _ _ h1 h2, Bool.false_eq_true, if_false,
    processCollapsibles, processTabsTags]
  simp

/-- C2 witness: the amended theorem at a one-paragraph fragment under a
grammar allowing `p` at the document root. -/
theorem C2_valid_fragment_unreported_witness :
    validate_soup_for_rte ["p"] (fun _ => ["[document]"])
      ((fun _ => [HNode.elem "p" [] []]) (brFix "x")) [("k", ["v"])] =
      ([("k", ["v"])], false) ∧
    validate_rte_format (fun _ => [HNode.elem "p" [] []]) (fun _ => none)
      (fun _ => none) ["p"] (fun _ => ["[document]"]) ["x"] =
      some [("strings", [])] :=
  C2_valid_fragment_unreported (fun _ => [HNode.elem "p" [] []])
    (fun _ => none) (fun _ => none) ["p"] (fun _ => ["[document]"])
    [("k", ["v"])] "x" (by decide) (by decide) rfl rfl

theorem alistGet_dictAppend_isSome (d : List (String × List String))
    (k' v k : String) (h : (alistGet d k).isSome = true) :
    (alistGet (dictAppend d k' v) k).isSome = true := by
  induction d with
  | nil => simp [alistGet] at h
  | cons a rest ih =>
      obtain ⟨a1, a2⟩ := a
      by_cases hk' : a1 = k'
      · subst hk'
        by_cases hk : a1 = k
        · subst hk
          simp [dictAppend, alistGet]
        · simp only [alistGet, hk, if_false] at h
          simp [dictAppend, alistGet, hk, h]
      · by_cases hk : a1 = k
        · subst hk
          simp [dictAppend, alistGet, hk']
        · simp only [alistGet, hk, if_false] at h
          simp [dictAppend, alistGet, hk, hk', ih h]

theorem checkTag_keeps_key (allowedTags : List String)
    (allowedParents : String → List String) (np : String × String)
    (st : List (String × List String) × Bool) (k : String)
    (h : (alistGet st.1 k).isSome = true) :
    (alistGet (checkTag allowedTags allowedParents np st).1 k).isSome = true := by
  unfold checkTag
  by_cases h1 : np.1 ∈ allowedTags
  · by_cases h2 : np.2 ∈ allowedParents np.1
    · simp [h1, h2, h]
    · simp only [h1, if_true, h2, not_false_iff, and_self, if_pos]
      exact alistGet_dictAppend_isSome _ _ _ _ h
  · simp only [h1, if_false, false_and, if_neg, not_false_iff]
    exact alistGet_dictAppend_isSome _ _ _ _ h

theorem foldl_checkTag_keeps_key (allowedTags : List String)
    (allowedParents : String → List String) (l : List (String × String))
    (st : List (String × List String) × Bool) (k : String)
    (h : (alistGet st.1 k).isSome = true) :
    (alistGet (l.foldl
      (fun st np => checkTag allowedTags allowedParents np st) st).1 k).isSome = true := by
  induction l generalizing st with
  | nil => exact h
  | cons np rest ih => exact ih _ (checkTag_keeps_key _ _ _ _ _ h)

theorem validate_soup_keeps_key (allowedTags : List String)
    (allowedParents : String → List String) (roots : List HNode)
    (errDict : List (String × List String)) (k : String)
    (h : (alistGet errDict k).isSome = true) :
    (alistGet (validate_soup_for_rte allowedTags allowedParents
      roots errDict).1 k).isSome = true := by
  unfold validate_soup_for_rte
  exact foldl_checkTag_keeps_key _ _ _ _ _ h

theorem processCollapsibles_keeps_key (parse : String → List HNode)
    (decodeStr : String → Option String) (allowedTags : List String)
    (allowedParents : String → List String) (htmlData : String)
    (l : List HNode) (errDict errDict' : List (String × List String)) (k : String)
    (hrun : processCollapsibles parse decodeStr allowedTags allowedParents
      htmlData l errDict = some errDict')
    (h : (alistGet errDict k).isSome = true) :
    (alistGet errDict' k).isSome = true := by
  induction l generalizing errDict with
  | nil =>
      simp only [processCollapsibles, Option.some.injEq] at hrun
      exact hrun ▸ h
  | cons c rest ih =>
      rcases ha : attrGet c "content-with-value" with _ | v
      · simp only [processCollapsibles, ha, if_true] at hrun
        exact ih _ hrun (alistGet_dictAppend_isSome _ _ _ _ h)
      · by_cases hv : v = ""
        · subst hv
          simp only [processCollapsibles, ha, if_pos rfl] at hrun
          exact ih _ hrun (alistGet_dictAppend_isSome _ _ _ _ h)
        · rcases hd : decodeStr v with _ | content
          · simp only [processCollapsibles, ha, if_neg hv, hd] at hrun
            cases hrun
          · simp only [processCollapsibles, ha, if_neg hv, hd] at hrun
            have hkeep := validate_soup_keeps_key allowedTags allowedParents
              (parse (brFix content)) errDict k h
            by_cases hb : (validate_soup_for_rte allowedTags allowedParents
                (parse (brFix content)) errDict).2 = true
            · rw [if_pos hb] at hrun
              exact ih _ hrun (alistGet_dictAppend_isSome _ _ _ _ hkeep)
            · rw [if_neg hb] at hrun
              exact ih _ hrun hkeep

theorem processTabContents_keeps_key (parse : String → List HNode)
    (allowedTags : List String) (allowedParents : String → List String)
    (htmlData : String) (l : List String)
    (errDict : List (String × List String)) (k : String)
    (h : (alistGet errDict k).isSome = true) :
    (alistGet (processTabContents parse allowedTags allowedParents htmlData
      l errDict) k).isSome = true := by
  induction l generalizing errDict with
  | nil => exact h
  | cons content rest ih =>
      have hkeep := validate_soup_keeps_key allowedTags allowedParents
        (parse (brFix content)) errDict k h
      by_cases hb : (validate_soup_for_rte allowedTags allowedParents
          (parse (brFix content)) errDict).2 = true
      · simp only [processTabContents, hb, if_true]
        exact ih _ (alistGet_dictAppend_isSome _ _ _ _ hkeep)
      · simp only [processTabContents, hb, if_false]
        exact ih _ hkeep

theorem processTabsTags_keeps_key (parse : String → List HNode)
    (decodeTabs : String → Option (List String)) (allowedTags : List String)
    (allowedParents : String → List String) (htmlData : String)
    (l : List HNode) (errDict errDict' : List (String × List String)) (k : String)
    (hrun : processTabsTags parse decodeTabs allowedTags allowedParents
      htmlData l errDict = some errDict')
    (h : (alistGet errDict k).isSome = true) :
    (alistGet errDict' k).isSome = true := by
  induction l generalizing errDict with
  | nil =>
      simp only [processTabsTags, Option.some.injEq] at hrun
      exact hrun ▸ h
  | cons t rest ih =>
      rcases ha : attrGet t "tab_contents-with-value" with _ | v
      · simp only [processTabsTags, ha] at hrun
        cases hrun
      · rcases hd : decodeTabs v with _ | contents
        · simp only [processTabsTags, ha, hd] at hrun
          cases hrun
        · simp only [processTabsTags, ha, hd] at hrun
          exact ih _ hrun
            (processTabContents_keeps_key _ _ _ _ _ _ _ h)

theorem processFragment_keeps_key (parse : String → List HNode)
    (decodeStr : String → Option String) (decodeTabs : String → Option (List String))
    (allowedTags : List String) (allowedParents : String → List String)
    (htmlData : String) (errDict errDict' : List (String × List String)) (k : String)
    (hrun : processFragment parse decodeStr decodeTabs allowedTags allowedParents
      htmlData errDict = some errDict')
    (h : (alistGet errDict k).isSome = true) :
    (alistGet errDict' k).isSome = true := by
  simp only [processFragment] at hrun
  have hkeep := validate_soup_keeps_key allowedTags allowedParents
    (parse (brFix htmlData)) errDict k h
  rcases hcol : processCollapsibles parse decodeStr allowedTags allowedParents
      htmlData (findAllTag "oppia-noninteractive-collapsible" (parse (brFix htmlData)))
      (if (validate_soup_for_rte allowedTags allowedParents
            (parse (brFix htmlData)) errDict).2 = true then
        dictAppend (validate_soup_for_rte allowedTags allowedParents
          (parse (brFix htmlData)) errDict).1 "strings" htmlData
      else (validate_soup_for_rte allowedTags allowedParents
        (parse (brFix htmlData)) errDict).1) with _ | errDict2
  · rw [hcol] at hrun
    cases hrun
  · rw [hcol] at hrun
    have h2 : (alistGet errDict2 k).isSome = true := by
      by_cases hb : (validate_soup_for_rte allowedTags allowedParents
          (parse (brFix htmlData)) errDict).2 = true
      · rw [if_pos hb] at hcol
        exact processCollapsibles_keeps_key _ _ _ _ _ _ _ _ _ hcol
          (alistGet_dictAppend_isSome _ _ _ _ hkeep)
      · rw [if_neg hb] at hcol
        exact processCollapsibles_keeps_key _ _ _ _ _ _ _ _ _ hcol hkeep
    exact processTabsTags_keeps_key _ _ _ _ _ _ _ _ _ hrun h2

theorem processFragments_keeps_key (parse : String → List HNode)
    (decodeStr : String → Option String) (decodeTabs : String → Option (List String))
    (allowedTags : List String) (allowedParents : String → List String)
    (l : List String) (errDict errDict' : List (String × List String)) (k : String)
    (hrun : processFragments parse decodeStr decodeTabs allowedTags allowedParents
      l errDict = some errDict')
    (h : (alistGet errDict k).isSome = true) :
    (alistGet errDict' k).isSome = true := by
  induction l generalizing errDict with
  | nil =>
      simp only [processFragments, Option.some.injEq] at hrun
      exact hrun ▸ h
  | cons s rest ih =>
      rcases hf : processFragment parse decodeStr decodeTabs allowedTags
          allowedParents s errDict with _ | errDict2
      · simp only [processFragments, hf] at hrun
        cases hrun
      · simp only [processFragments, hf] at hrun
        exact ih _ hrun (processFragment_keeps_key _ _ _ _ _ _ _ _ _ hf h)

theorem alistGet_map_dedup (d : List (String × List String)) (k : String) :
    alistGet (d.map (fun kv => (kv.1, kv.2.dedup))) k =
      (alistGet d k).map List.dedup := by
  induction d with
  | nil => rfl
  | cons a rest ih =>
      by_cases hk : a.1 = k <;> simp [alistGet, hk, ih]

theorem map_dedup_idem (d : List (String × List String)) :
    (d.map (fun kv => (kv.1, kv.2.dedup))).map (fun kv => (kv.1, kv.2.dedup)) =
      d.map (fun kv => (kv.1, kv.2.dedup)) := by
  induction d with
  | nil => rfl
  | cons a rest ih => simp [ih, List.dedup_idem]

/-!
## Claim C10 — returned dict always has a strings key and deduplicated buckets
-/

/-- C10: whenever `validate_rte_format` returns a dict (does not
raise), the dict has the `strings` key, and every bucket equals its own
deduplication — no value occurs twice in any bucket. -/
theorem C10_validate_rte_format_invariants (parse : String → List HNode)
    (decodeStr : String → Option String) (decodeTabs : String → Option (List String))
    (allowedTags : List String) (allowedParents : String → List String)
    (htmlList : List String) (d : List (String × List String))
    (h : validate_rte_format parse decodeStr decodeTabs allowedTags allowedParents
      htmlList = some d) :
    (alistGet d "strings").isSome = true ∧
    d.map (fun kv => (kv.1, kv.2.dedup)) = d := by
  unfold validate_rte_format at h
  rcases hp : processFragments parse decodeStr decodeTabs allowedTags
      allowedParents htmlList [("strings", [])] with _ | e
  · rw [hp] at h
    cases h
  · rw [hp] at h
    simp only [Option.some.injEq] at h
    subst h
    refine ⟨?_, map_dedup_idem e⟩
    rw [alistGet_map_dedup]
    have hs : (alistGet ([("strings", [])] : List (String × List String))
        "strings").isSome = true := rfl
    have := processFragments_keeps_key _ _ _ _ _ _ _ _ _ hp hs
    rcases hget : alistGet e "strings" with _ | vs
    · rw [hget] at this
      cases this
    · rfl

/-- C10 witness: a concrete call on one fragment with an empty parse
result returns a dict whose strings key is present and whose buckets
are fixed by deduplication. -/
theorem C10_validate_rte_format_invariants_witness :
    validate_rte_format (fun _ => []) (fun _ => none) (fun _ => none) []
      (fun _ => []) ["x"] = some [("strings", [])] ∧
    (alistGet ([("strings", [])] : List (String × List String)) "strings").isSome = true ∧
    ([("strings", [])] : List (String × List String)).map
      (fun kv => (kv.1, kv.2.dedup)) = [("strings", [])] :=
  ⟨by decide,
    (C10_validate_rte_format_invariants (fun _ => []) (fun _ => none)
      (fun _ => none) [] (fun _ => []) ["x"] [("strings", [])] (by decide)).1,
    (C10_validate_rte_format_invariants (fun _ => []) (fun _ => none)
      (fun _ => none) [] (fun _ => []) ["x"] [("strings", [])] (by decide)).2⟩

theorem wrapNextSplit_eq (l : List HNode) :
    wrapNextSplit l =
      (l.takeWhile (fun s => !(isIndependent s)),
       l.dropWhile (fun s => !(isIndependent s))) := by
  induction l with
  | nil => rfl
  | cons s rest ih =>
      by_cases h : isIndependent s = true
      · simp [wrapNextSplit, h, List.takeWhile_cons, List.dropWhile_cons]
      · rw [Bool.not_eq_true] at h
        simp [wrapNextSplit, h, List.takeWhile_cons, List.dropWhile_cons, ih]

theorem findIdx?_split {α : Type} (p : α → Bool) (l : List α) (j : Nat)
    (h : l.findIdx? p = some j) :
    l.takeWhile (fun a => !(p a)) = l.take j ∧
    l.dropWhile (fun a => !(p a)) = l.drop j ∧ j < l.length := by
  induction l generalizing j with
  | nil =>
      rw [List.findIdx?_nil] at h
      cases h
  | cons a rest ih =>
      rw [List.findIdx?_cons] at h
      by_cases ha : p a = true
      · rw [if_pos ha, Option.some.injEq] at h
        subst h
        simp [List.takeWhile_cons, List.dropWhile_cons, ha]
      · rw [if_neg ha, List.findIdx?_succ] at h
        rw [Bool.not_eq_true] at ha
        rcases hr : rest.findIdx? p with _ | j'
        · rw [hr] at h
          cases h
        · rw [hr] at h
          rw [Option.map_some'] at h
          rw [Option.some.injEq] at h
          subst h
          obtain ⟨h1, h2, h3⟩ := ih j' hr
          refine ⟨?_, ?_, ?_⟩
          · simp [List.takeWhile_cons, ha, h1]
          · simp [List.dropWhile_cons, ha, h2]
          · simpa using Nat.succ_lt_succ h3

theorem enumFrom_filter_ge_drop (k : Int) (q : List HNode) : ∀ n : Nat,
    ((List.enumFrom n q).filter (fun is => (is.1 : Int) ≥ k)).map Prod.snd =
      q.drop (k - (n : Int)).toNat := by
  induction q with
  | nil => intro n; simp
  | cons a as ih =>
      intro n
      rw [List.enumFrom_cons, List.filter_cons]
      by_cases h : ((n : Int) ≥ k)
      · rw [if_pos (decide_eq_true h), List.map_cons, ih (n + 1)]
        have e1 : (k - (n : Int)).toNat = 0 := by omega
        have e2 : (k - ((n + 1 : Nat) : Int)).toNat = 0 := by
          push_cast
          omega
        rw [e1, e2, List.drop_zero, List.drop_zero]
      · rw [if_neg (by simp [h]), ih (n + 1)]
        have e1 : (k - (n : Int)).toNat = (k - ((n + 1 : Nat) : Int)).toNat + 1 := by
          push_cast
          omega
        rw [e1, List.drop_succ_cons]

theorem enumFrom_filter_lt_take (k : Int) (q : List HNode) : ∀ n : Nat,
    ((List.enumFrom n q).filter (fun is => ¬ (is.1 : Int) ≥ k)).map Prod.snd =
      q.take (k - (n : Int)).toNat := by
  induction q with
  | nil => intro n; simp
  | cons a as ih =>
      intro n
      rw [List.enumFrom_cons, List.filter_cons]
      by_cases h : ((n : Int) ≥ k)
      · rw [if_neg (by simp [h]), ih (n + 1)]
        have e1 : (k - (n : Int)).toNat = 0 := by omega
        have e2 : (k - ((n + 1 : Nat) : Int)).toNat = 0 := by
          push_cast
          omega
        rw [e1, e2, List.take_zero, List.take_zero]
      · rw [if_pos (decide_eq_true (by simpa using h)), List.map_cons, ih (n + 1)]
        have e1 : (k - (n : Int)).toNat = (k - ((n + 1 : Nat) : Int)).toNat + 1 := by
          push_cast
          omega
        rw [e1, List.take_succ_cons]

theorem wrap_prev_absorbed (prevDoc : List HNode) :
    ((prevDoc.enum.filter (fun is => (is.1 : Int) ≥
        (match prevDoc.reverse.findIdx? isIndependent with
         | some j => (prevDoc.reverse.length : Int) - (j : Int)
         | none => -1))).map Prod.snd) =
      (prevDoc.reverse.takeWhile (fun s => !(isIndependent s))).reverse := by
  rcases hidx : prevDoc.reverse.findIdx? isIndependent with _ | j
  · have hall : ∀ x ∈ prevDoc.reverse, isIndependent x = false :=
      List.findIdx?_eq_none_iff.mp hidx
    have htw : prevDoc.reverse.takeWhile (fun s => !(isIndependent s)) =
        prevDoc.reverse := by
      rw [List.takeWhile_eq_self_iff]
      intro a ha
      simp [hall a ha]
    rw [htw, List.reverse_reverse]
    have := enumFrom_filter_ge_drop (-1) prevDoc 0
    simp only [Nat.cast_zero, Int.sub_zero] at this
    rw [show prevDoc.enum = List.enumFrom 0 prevDoc from rfl, this]
    rfl
  · obtain ⟨h1, _, h3⟩ := findIdx?_split isIndependent prevDoc.reverse j hidx
    rw [h1, List.reverse_take, List.reverse_reverse]
    have := enumFrom_filter_ge_drop
      ((prevDoc.reverse.length : Int) - (j : Int)) prevDoc 0
    simp only [Nat.cast_zero, Int.sub_zero] at this
    rw [show prevDoc.enum = List.enumFrom 0 prevDoc from rfl, this]
    have : ((prevDoc.reverse.length : Int) - (j : Int)).toNat =
        prevDoc.reverse.length - j := by omega
    rw [this]

theorem wrap_prev_kept (prevDoc : List HNode) :
    ((prevDoc.enum.filter (fun is => ¬ (is.1 : Int) ≥
        (match prevDoc.reverse.findIdx? isIndependent with
         | some j => (prevDoc.reverse.length : Int) - (j : Int)
         | none => -1))).map Prod.snd) =
      (prevDoc.reverse.dropWhile (fun s => !(isIndependent s))).reverse := by
  rcases hidx : prevDoc.reverse.findIdx? isIndependent with _ | j
  · have hall : ∀ x ∈ prevDoc.reverse, isIndependent x = false :=
      List.findIdx?_eq_none_iff.mp hidx
    have hdw : prevDoc.reverse.dropWhile (fun s => !(isIndependent s)) = [] := by
      rw [List.dropWhile_eq_nil_iff]
      intro a ha
      simp [hall a ha]
    rw [hdw]
    have := enumFrom_filter_lt_take (-1) prevDoc 0
    simp only [Nat.cast_zero, Int.sub_zero] at this
    rw [show prevDoc.enum = List.enumFrom 0 prevDoc from rfl, this]
    rfl
  · obtain ⟨_, h2, h3⟩ := findIdx?_split isIndependent prevDoc.reverse j hidx
    rw [h2, List.reverse_drop, List.reverse_reverse]
    have := enumFrom_filter_lt_take
      ((prevDoc.reverse.length : Int) - (j : Int)) prevDoc 0
    simp only [Nat.cast_zero, Int.sub_zero] at this
    rw [show prevDoc.enum = List.enumFrom 0 prevDoc from rfl, this]
    have : ((prevDoc.reverse.length : Int) - (j : Int)).toNat =
        prevDoc.reverse.length - j := by omega
    rw [this]

/-!
## Claim C8 — sibling wrapping
-/

/-- C8: `wrap_with_siblings` computes exactly the specified wrapping —
the wrapper absorbs the contiguous run of non-self-sufficient previous
siblings (stopping at the first of h1/p/pre/ol/ul/blockquote walking
backward), the node itself, and the contiguous run of
non-self-sufficient following siblings, all in original document order,
with the unabsorbed siblings left in place; in particular, for siblings
[h1, span, span, p] and wrapping the second span, the wrapper contains
[span, span] in order with the h1 and p left outside. -/
theorem C8_wrap_with_siblings_refines_spec :
    (∀ (prevDoc : List HNode) (tag : HNode) (nextSib : List HNode)
      (pname : String) (pattrs : List (String × String)),
      wrap_with_siblings prevDoc tag nextSib pname pattrs =
        wrapWithSiblingsSpec prevDoc tag nextSib pname pattrs) ∧
    wrap_with_siblings
        [HNode.elem "h1" [] [], HNode.elem "span" [("id", "1")] []]
        (HNode.elem "span" [("id", "2")] [])
        [HNode.elem "p" [] []] "p" [] =
      [HNode.elem "h1" [] [],
       HNode.elem "p" []
         [HNode.elem "span" [("id", "1")] [], HNode.elem "span" [("id", "2")] []],
       HNode.elem "p" [] []] := by
  constructor
  · intro prevDoc tag nextSib pname pattrs
    simp only [wrap_with_siblings, wrapWithSiblingsSpec, wrapNextSplit_eq,
      List.reverse_reverse]
    rw [wrap_prev_absorbed, wrap_prev_kept]
  · rfl
